import Mathlib

/-!
Verification of the `packagify.py` / `paquet_facile.py` synchronization tool
(repository `fabienheureux/sites-faciles`): a rule-driven search/replace engine.

The Python string operations (`str.count`, `str.replace`, `str.replace(..., 1)`,
the `in` substring test) are embedded as structurally recursive functions on
`List Char`; where the source skips a fixed number of characters after a match,
a fuel argument (always instantiated with `length + 1`, which is sufficient
because every step consumes at least one character) keeps the recursion
structural so that concrete instances reduce in the kernel.
-/

set_option autoImplicit false

namespace SitesFaciles

/-- `startsWithL pat s` is true when `pat` is an initial segment of `s`. -/
def startsWithL : List Char → List Char → Bool
  | [], _ => true
  | _ :: _, [] => false
  | p :: ps, x :: xs => p = x && startsWithL ps xs

/-- Fuelled core of Python `text.count(pat)`: counts non-overlapping
occurrences, scanning left to right; an empty pattern counts `length + 1`
occurrences, as in Python. -/
def countAux (pat : List Char) : Nat → List Char → Nat
  | 0, _ => 0
  | _ + 1, [] => if pat = [] then 1 else 0
  | fuel + 1, x :: xs =>
    if pat = [] then 1 + countAux pat fuel xs
    else if startsWithL pat (x :: xs) then 1 + countAux pat fuel ((x :: xs).drop pat.length)
    else countAux pat fuel xs

/-- Fuelled core of Python `text.replace(pat, rep)`: replaces all
non-overlapping occurrences left to right; an empty pattern interleaves `rep`
between every character, as in Python. -/
def replaceAux (pat rep : List Char) : Nat → List Char → List Char
  | 0, s => s
  | _ + 1, [] => if pat = [] then rep else []
  | fuel + 1, x :: xs =>
    if pat = [] then rep ++ x :: replaceAux pat rep fuel xs
    else if startsWithL pat (x :: xs) then rep ++ replaceAux pat rep fuel ((x :: xs).drop pat.length)
    else x :: replaceAux pat rep fuel xs

/-- Python `text.replace(pat, rep, 1)`: replace only the first occurrence. -/
def replaceFirstAux (pat rep : List Char) : List Char → List Char
  | [] => if pat = [] then rep else []
  | x :: xs =>
    if pat = [] then rep ++ x :: xs
    else if startsWithL pat (x :: xs) then rep ++ (x :: xs).drop pat.length
    else x :: replaceFirstAux pat rep xs

/-- Python `pat in s` (substring containment). -/
def containsL (pat : List Char) : List Char → Bool
  | [] => decide (pat = [])
  | x :: xs => startsWithL pat (x :: xs) || containsL pat xs

/-- Python `text.count(pat)`. -/
def pyCount (text pat : String) : Nat :=
  countAux pat.data (text.data.length + 1) text.data

/-- Python `text.replace(pat, rep)`. -/
def pyReplace (text pat rep : String) : String :=
  ⟨replaceAux pat.data rep.data (text.data.length + 1) text.data⟩

/-- Python `text.replace(pat, rep, 1)`. -/
def pyReplaceFirst (text pat rep : String) : String :=
  ⟨replaceFirstAux pat.data rep.data text.data⟩

/-- Python `pat in text`. -/
def pyContains (text pat : String) : Bool :=
  containsL pat.data text.data

/-- Python truthiness of an optional string: `None` and `""` are falsy.
The scripts test rule fields with `if value:` so both cases behave alike. -/
def optTruthy : Option String → Bool
  | none => false
  | some s => s ≠ ""

/-- A rule object from the YAML configuration (`rules:` entries in both
`packagify.py` and `paquet_facile.py`); absent keys are `none`. -/
structure Rule where
  search : Option String
  replace : Option String
  literal : Bool
  filter : Option String
  scope : Option String
  path_glob : Option String
deriving DecidableEq

/-- The dict update `{**rule, "search": s, "replace": r}` used during
expansion: the two text fields change, every other field passes through. -/
def setSR (rule : Rule) (s r : String) : Rule :=
  ⟨some s, some r, rule.literal, rule.filter, rule.scope, rule.path_glob⟩

/-- Python `str.upper()` on ASCII text. -/
def pyUpper (s : String) : String :=
  ⟨s.data.map Char.toUpper⟩

/-!
A small regular-expression engine covering the constructs the configuration
rules use in regex mode: literal characters, escaped characters, `.` (with
`re.DOTALL`, so it matches every character), and the lazy star `*?` applied to
a single-character atom. `compileP` returns `none` for any other construct;
`apply_rule_to_text` maps `none` to the `re.error` branch of the source, which
returns the input unchanged with count 0. Matching is backtracking with
Python's priority order (a lazy star prefers the fewest repetitions), and
`reFindall` / `reSubn` scan for leftmost non-overlapping matches exactly as
`re.findall` / `re.subn` do, advancing one character after an empty match.
-/

/-- A single-character regex atom. -/
inductive RBase where
  | lit (c : Char)
  | dot
deriving DecidableEq

/-- One element of a compiled pattern: an atom, or a lazy star over an atom. -/
inductive RElem where
  | base (b : RBase)
  | star (b : RBase)
deriving DecidableEq

/-- Does an atom match one character (DOTALL semantics for `.`)? -/
def baseMatch : RBase → Char → Bool
  | RBase.lit c, x => c = x
  | RBase.dot, _ => true

/-- Regex metacharacters that `compileP` does not support unescaped. -/
def isMeta (c : Char) : Bool :=
  c = '*' || c = '+' || c = '?' || c = '(' || c = ')' || c = '[' || c = ']' ||
  c = '|' || c = '^' || c = '$' || c = '\x7b' || c = '\x7d' || c = '\\'

/-- Compile a pattern string into a list of elements; `none` when the pattern
uses a construct outside the supported subset. -/
def compileAux : List Char → Option (List RElem)
  | [] => some []
  | '\\' :: [] => none
  | '\\' :: c :: rest => (compileAux rest).map (RElem.base (RBase.lit c) :: ·)
  | '.' :: '*' :: '?' :: rest => (compileAux rest).map (RElem.star RBase.dot :: ·)
  | '.' :: rest => (compileAux rest).map (RElem.base RBase.dot :: ·)
  | c :: '*' :: '?' :: rest =>
    if isMeta c then none else (compileAux rest).map (RElem.star (RBase.lit c) :: ·)
  | c :: rest =>
    if isMeta c then none else (compileAux rest).map (RElem.base (RBase.lit c) :: ·)

/-- Compile a pattern string. -/
def compileP (pat : String) : Option (List RElem) :=
  compileAux pat.data

/-- Fuelled backtracking matcher: attempt to match `es` at the start of `s`,
returning the remaining suffix of the highest-priority match. Each call
consumes one unit of fuel and decreases either `es` or `s`, so fuel
`es.length + s.length + 1` always suffices. -/
def matchElems : Nat → List RElem → List Char → Option (List Char)
  | 0, _, _ => none
  | _ + 1, [], s => some s
  | fuel + 1, RElem.base b :: es, s =>
    match s with
    | [] => none
    | x :: xs => if baseMatch b x then matchElems fuel es xs else none
  | fuel + 1, RElem.star b :: es, s =>
    match matchElems fuel es s with
    | some r => some r
    | none =>
      match s with
      | [] => none
      | x :: xs => if baseMatch b x then matchElems fuel (RElem.star b :: es) xs else none

/-- Match `es` at the start of `s` with sufficient fuel. -/
def reMatch (es : List RElem) (s : List Char) : Option (List Char) :=
  matchElems (es.length + s.length + 1) es s

/-- Fuelled core of `re.findall` (no groups): leftmost non-overlapping
matches, advancing one character after an empty match. -/
def findallAux (p : List RElem) : Nat → List Char → List (List Char)
  | 0, _ => []
  | fuel + 1, s =>
    match reMatch p s with
    | some rem =>
      if s.length - rem.length = 0 then
        s.take (s.length - rem.length) ::
          (match s with
           | [] => []
           | _ :: xs => findallAux p fuel xs)
      else s.take (s.length - rem.length) :: findallAux p fuel rem
    | none =>
      match s with
      | [] => []
      | _ :: xs => findallAux p fuel xs

/-- `re.findall(p, text, re.DOTALL)` for a compiled pattern without groups. -/
def reFindall (p : List RElem) (s : List Char) : List (List Char) :=
  findallAux p (s.length + 1) s

/-- Fuelled core of `re.subn`: replace every non-overlapping match of `p` by
`rep` (treated literally — the rules use replacement text without group
references), returning the new text and the number of substitutions. -/
def subnAux (p : List RElem) (rep : List Char) : Nat → List Char → List Char × Nat
  | 0, s => (s, 0)
  | fuel + 1, s =>
    match reMatch p s with
    | some rem =>
      if s.length - rem.length = 0 then
        match s with
        | [] => (rep, 1)
        | x :: xs =>
          ((rep ++ x :: (subnAux p rep fuel xs).1), (subnAux p rep fuel xs).2 + 1)
      else ((rep ++ (subnAux p rep fuel rem).1), (subnAux p rep fuel rem).2 + 1)
    | none =>
      match s with
      | [] => ([], 0)
      | x :: xs => ((x :: (subnAux p rep fuel xs).1), (subnAux p rep fuel xs).2)

/-- `re.subn(p, rep, text)` for a compiled pattern. -/
def reSubn (p : List RElem) (rep : List Char) (s : List Char) : List Char × Nat :=
  subnAux p rep (s.length + 1) s

/-- One step of the filter-mode loop in `apply_rule_to_text`: rewrite the
filter match `m` in isolation with `re.subn`, splice the rewritten text back
by replacing the first occurrence of `m` in the accumulated text, and add the
substitution count. -/
def spliceStep (sp : List RElem) (rep : List Char) (acc : List Char × Nat) (m : List Char) :
    List Char × Nat :=
  (replaceFirstAux m (reSubn sp rep m).1 acc.1, acc.2 + (reSubn sp rep m).2)

/-- The whole filter-mode branch of `apply_rule_to_text`: fold `spliceStep`
over all filter matches, starting from the original text and count 0. -/
def spliceAll (fp sp : List RElem) (rep text : String) : String × Nat :=
  (⟨((reFindall fp text.data).foldl (spliceStep sp rep.data) (text.data, 0)).1⟩,
   ((reFindall fp text.data).foldl (spliceStep sp rep.data) (text.data, 0)).2)

/-- `apply_rule_to_text(text, rule)` (identical in `packagify.py` lines
201–237 and `paquet_facile.py` lines 198–234). The pipeline only calls it on
rules whose `search`/`replace` keys are present, so the embedding reads the
fields with a default; `compileP _ = none` plays the part of the `re.error`
branch, which returns `(text, 0)`. -/
def apply_rule_to_text (rule : Rule) (text : String) : String × Nat :=
  if rule.literal then
    if pyCount text (rule.search.getD "") = 0 then (text, 0)
    else (pyReplace text (rule.search.getD "") (rule.replace.getD ""),
          pyCount text (rule.search.getD ""))
  else if optTruthy rule.filter then
    match compileP (rule.filter.getD ""), compileP (rule.search.getD "") with
    | some fp, some sp => spliceAll fp sp (rule.replace.getD "") text
    | _, _ => (text, 0)
  else
    match compileP (rule.search.getD "") with
    | some sp =>
      (⟨(reSubn sp (rule.replace.getD "").data text.data).1⟩,
       (reSubn sp (rule.replace.getD "").data text.data).2)
    | none => (text, 0)

/-- Association lookup used for `scopes.get(scope_name)` (a Python dict has
unique keys; the first binding wins). -/
def scopesGet : List (String × String) → String → Option String
  | [], _ => none
  | (k, v) :: rest, key => if k = key then some v else scopesGet rest key

/-- `get_files_for_rule(rule, scopes)` (identical in both scripts), with the
external `git ls-files` call abstracted as the function argument `gitLs`. -/
def get_files_for_rule (gitLs : String → List String) (scopes : List (String × String))
    (rule : Rule) : List String :=
  if optTruthy rule.path_glob then gitLs (rule.path_glob.getD "")
  else if optTruthy rule.scope = false then []
  else if optTruthy (scopesGet scopes (rule.scope.getD "")) = false then []
  else gitLs ((scopesGet scopes (rule.scope.getD "")).getD "")

namespace Packagify

/-- Expansion of one raw rule in `packagify.py` (`expand_rules`, lines
140–167): skip when `search` is falsy or `replace` is `None`; fork one rule
per app when `"{app}" in (search + replace)` and the app list is non-empty;
otherwise keep the rule as is. -/
def expandOne (apps : List String) (rule : Rule) : List Rule :=
  match rule.search, rule.replace with
  | some s, some r =>
    if s = "" then []
    else if pyContains (s ++ r) "{app}" && !apps.isEmpty then
      apps.map (fun app => setSR rule (pyReplace s "{app}" app) (pyReplace r "{app}" app))
    else [rule]
  | _, _ => []

/-- `expand_rules` of `packagify.py` over the rule list (the loop appends the
expansion of each rule in order). -/
def expand_rules (apps : List String) : List Rule → List Rule
  | [] => []
  | rule :: rest => expandOne apps rule ++ expand_rules apps rest

end Packagify

namespace PaquetFacile

/-- The package-token substitution done first in `paquet_facile.py`'s
`expand_rules` (lines 143–147): `{package_name}` then `{package_name_upper}`. -/
def pkgSubst (pkg t : String) : String :=
  pyReplace (pyReplace t "{package_name}" pkg) "{package_name_upper}" (pyUpper pkg)

/-- Expansion of one raw rule in `paquet_facile.py` (`expand_rules`, lines
127–164): validity check, package-token substitution, then the same `{app}`
fork on the concatenation of the substituted strings. -/
def expandOne (apps : List String) (pkg : String) (rule : Rule) : List Rule :=
  match rule.search, rule.replace with
  | some s0, some r0 =>
    if s0 = "" then []
    else if pyContains (pkgSubst pkg s0 ++ pkgSubst pkg r0) "{app}" && !apps.isEmpty then
      apps.map (fun app =>
        setSR rule (pyReplace (pkgSubst pkg s0) "{app}" app)
          (pyReplace (pkgSubst pkg r0) "{app}" app))
    else [setSR rule (pkgSubst pkg s0) (pkgSubst pkg r0)]
  | _, _ => []

/-- `expand_rules` of `paquet_facile.py` over the rule list. -/
def expand_rules (apps : List String) (pkg : String) : List Rule → List Rule
  | [] => []
  | rule :: rest => expandOne apps pkg rule ++ expand_rules apps pkg rest

end PaquetFacile

/-- Python `str.title()` on ASCII text: an alphabetic character directly
after a non-alphabetic one (or at the start) is uppercased, every other
alphabetic character is lowercased. -/
def pyTitleAux : Bool → List Char → List Char
  | _, [] => []
  | prevAlpha, c :: cs =>
    if c.isAlpha then
      (if prevAlpha then c.toLower else c.toUpper) :: pyTitleAux true cs
    else c :: pyTitleAux false cs

/-- Python `str.title()`. -/
def pyTitle (s : String) : String :=
  ⟨pyTitleAux false s.data⟩

/-- Python `str.capitalize()`: first character uppercased, rest lowercased. -/
def pyCapitalize (s : String) : String :=
  match s.data with
  | [] => ""
  | c :: cs => ⟨c.toUpper :: cs.map Char.toLower⟩

/-- Python `str.split(sep)` for a one-character separator. -/
def pySplitAux (sep : Char) : List Char → List Char → List String
  | acc, [] => [⟨acc.reverse⟩]
  | acc, c :: cs =>
    if c = sep then ⟨acc.reverse⟩ :: pySplitAux sep [] cs
    else pySplitAux sep (c :: acc) cs

/-- Python `str.split(sep)` for a one-character separator. -/
def pySplit (sep : Char) (s : String) : List String :=
  pySplitAux sep [] s.data

/-- `package_name.replace("_", " ").title()` — the `{package_verbose_name}`
value in `_process_templates` (`paquet_facile.py` line 407). -/
def packageNameTitle (pkg : String) : String :=
  pyTitle (pyReplace pkg "_" " ")

/-- `package_name.replace("_", "-")` — the `{package_name_kebab}` value
(`paquet_facile.py` line 408). -/
def packageNameKebab (pkg : String) : String :=
  pyReplace pkg "_" "-"

/-- `"".join(word.capitalize() for word in package_name.split("_"))` — the
`{PackageName}` value (`paquet_facile.py` line 409). -/
def classNameOf (pkg : String) : String :=
  String.join ((pySplit '_' pkg).map pyCapitalize)

/-- `tag.lstrip("v")` — the `{version}` value (`paquet_facile.py` line 412).
Note `lstrip` removes every leading `v`, not just one. -/
def versionOf (tag : String) : String :=
  ⟨tag.data.dropWhile (fun c => c = 'v')⟩

/-- The substitution applied to the `apps.template.py` content in
`_process_templates` (`paquet_facile.py` lines 420–424): `{PackageName}`,
then `{package_name}`, then `{package_verbose_name}`. -/
def renderAppsTemplate (pkg content : String) : String :=
  pyReplace
    (pyReplace (pyReplace content "{PackageName}" (classNameOf pkg)) "{package_name}" pkg)
    "{package_verbose_name}" (packageNameTitle pkg)

/-- The substitution applied to the `pyproject.template.toml` content
(`paquet_facile.py` lines 437–441): `{package_name}`, then
`{package_name_kebab}`, then `{version}`. -/
def renderPyprojectTemplate (pkg tag content : String) : String :=
  pyReplace
    (pyReplace (pyReplace content "{package_name}" pkg) "{package_name_kebab}"
      (packageNameKebab pkg))
    "{version}" (versionOf tag)

/-!
Filesystem model for `apply_rule_to_file` and the concurrent processor.
A file store maps paths to a content string plus a writability flag; a path
absent from the store models the `path.read_text` failure branch, and
`writable = false` models the `path.write_text` failure branch (both are
caught in the source and reported as "no change").
-/

/-- Content and writability of one file. -/
structure FileState where
  content : String
  writable : Bool
deriving DecidableEq

/-- A file store: an association of paths to file states. -/
abbrev FS := List (String × FileState)

/-- Read a file's state (first binding wins, as paths are unique). -/
def fsLookup : FS → String → Option FileState
  | [], _ => none
  | (q, st) :: rest, p => if q = p then some st else fsLookup rest p

/-- Overwrite the content of path `p` (keeping its writability). -/
def fsWrite : FS → String → String → FS
  | [], _, _ => []
  | (q, st) :: rest, p, c =>
    if q = p then (q, ⟨c, st.writable⟩) :: fsWrite rest p c
    else (q, st) :: fsWrite rest p c

/-- Whether a write to path `p` would succeed. -/
def fsWritable (fs : FS) (p : String) : Bool :=
  match fsLookup fs p with
  | none => false
  | some st => st.writable

/-- `apply_rule_to_file(path, rule, dry_run)` (identical in both scripts):
read (failure ⇒ `False`), rewrite, report `False` when the count is 0,
report `True` without writing in dry-run mode, otherwise write (failure ⇒
`False`). Returns the verdict together with the resulting store. -/
def apply_rule_to_file (fs : FS) (p : String) (rule : Rule) (dryRun : Bool) : Bool × FS :=
  match fsLookup fs p with
  | none => (false, fs)
  | some st =>
    if (apply_rule_to_text rule st.content).2 = 0 then (false, fs)
    else if dryRun then (true, fs)
    else if st.writable then (true, fsWrite fs p (apply_rule_to_text rule st.content).1)
    else (false, fs)

/-- One linearization of the worker pool in `run_refactor`
(`packagify.py` lines 354–378) and `_apply_transformations`
(`paquet_facile.py` lines 337–370): the submitted `(file, rule)` units are
applied in order, and the summary counter adds one for every unit whose
verdict is `True` — exactly the `if future.result(): total_files_changed += 1`
aggregation. -/
def processUnits (d : Bool) : FS → List (String × Rule) → FS × Nat
  | fs, [] => (fs, 0)
  | fs, (p, r) :: us =>
    ((processUnits d (apply_rule_to_file fs p r d).2 us).1,
     (if (apply_rule_to_file fs p r d).1 then 1 else 0)
       + (processUnits d (apply_rule_to_file fs p r d).2 us).2)

/-- The per-unit verdicts of the same linearization, paired with the unit's
path. -/
def unitVerdicts (d : Bool) : FS → List (String × Rule) → List (String × Bool)
  | _, [] => []
  | fs, (p, r) :: us =>
    (p, (apply_rule_to_file fs p r d).1) :: unitVerdicts d (apply_rule_to_file fs p r d).2 us

/-- The distinct file paths that were (or in dry-run would be) modified
during the run: paths of units with a `True` verdict, deduplicated. -/
def changedFiles (d : Bool) (fs : FS) (us : List (String × Rule)) : List String :=
  (((unitVerdicts d fs us).filter (fun v => v.2)).map (fun v => v.1)).dedup

-- Sanity checks: Python reference behaviour of the embedded primitives.
example : pyCount "aXaXa" "X" = 2 := by decide
example : pyReplace "aXaXa" "X" "Y" = "aYaYa" := by decide
example : pyCount "ab" "" = 3 := by decide
example : pyReplace "ab" "" "X" = "XaXbX" := by decide
example : pyReplaceFirst "abab" "ab" "c" = "cab" := by decide
example : pyContains "X{app}Y" "{app}" = true := by decide
example : pyTitle "my site" = "My Site" := by decide
example : pyCapitalize "fOO" = "Foo" := by decide
example : pySplit '_' "my_site" = ["my", "site"] := by decide
example : compileP "<a>.*?</a>" = some [RElem.base (RBase.lit '<'), RElem.base (RBase.lit 'a'),
    RElem.base (RBase.lit '>'), RElem.star RBase.dot, RElem.base (RBase.lit '<'),
    RElem.base (RBase.lit '/'), RElem.base (RBase.lit 'a'), RElem.base (RBase.lit '>')] := by decide
example : compileP "a*b" = none := by decide
example :
    reFindall [RElem.base (RBase.lit '<'), RElem.base (RBase.lit 'a'), RElem.base (RBase.lit '>'),
      RElem.star RBase.dot, RElem.base (RBase.lit '<'), RElem.base (RBase.lit '/'),
      RElem.base (RBase.lit 'a'), RElem.base (RBase.lit '>')] "<a>FOO</a> FOO".data
      = ["<a>FOO</a>".data] := by decide
example : reSubn [RElem.star RBase.dot] "-".data "ab".data = ("-a-b-".data, 3) := by decide
-- Regex mode without filter: a non-matching pattern is a no-op, not an error.
example : apply_rule_to_text ⟨some "Z", some "W", false, none, none, none⟩ "hello"
    = ("hello", 0) := by decide

/-- When `text.count(pat)` is 0 there is no occurrence to replace, so
`text.replace(pat, rep)` returns the text unchanged (same fuel on both
sides). -/
theorem replaceAux_of_count_zero (pat rep : List Char) :
    ∀ (fuel : Nat) (s : List Char), countAux pat fuel s = 0 → replaceAux pat rep fuel s = s := by
  intro fuel
  induction fuel with
  | zero => intro s _; rfl
  | succ n ih =>
    intro s h
    cases s with
    | nil =>
      by_cases hp : pat = []
      · simp [countAux, hp] at h
      · simp [replaceAux, hp]
    | cons x xs =>
      by_cases hp : pat = []
      · simp [countAux, hp] at h
      · by_cases hsw : startsWithL pat (x :: xs) = true
        · simp [countAux, hp, hsw] at h
        · have h' : countAux pat n xs = 0 := by
            simpa [countAux, hp, hsw] using h
          simp [replaceAux, hp, hsw, ih xs h']

/-- The zero-count shortcut of literal mode in `apply_rule_to_text`. -/
theorem apply_literal_zero (rule : Rule) (t s : String)
    (hl : rule.literal = true) (hs : rule.search = some s) (h0 : pyCount t s = 0) :
    apply_rule_to_text rule t = (t, 0) := by
  simp [apply_rule_to_text, hl, hs, h0]

/-- The summary counter of the processor equals the number of `(file, rule)`
units whose verdict was `True`. -/
theorem processUnits_count (d : Bool) :
    ∀ (us : List (String × Rule)) (fs : FS),
      (processUnits d fs us).2 = ((unitVerdicts d fs us).filter (fun v => v.2)).length := by
  intro us
  induction us with
  | nil => intro fs; rfl
  | cons u rest ih =>
    intro fs
    obtain ⟨p, r⟩ := u
    by_cases hb : (apply_rule_to_file fs p r d).1 = true <;>
      simp [processUnits, unitVerdicts, hb, ih, Nat.add_comm]

/-- The verdict list records exactly the submitted unit paths, in order. -/
theorem unitVerdicts_paths (d : Bool) :
    ∀ (us : List (String × Rule)) (fs : FS),
      (unitVerdicts d fs us).map Prod.fst = us.map Prod.fst := by
  intro us
  induction us with
  | nil => intro fs; rfl
  | cons u rest ih =>
    intro fs
    obtain ⟨p, r⟩ := u
    simp [unitVerdicts, ih]

/-- The count component of the filter-mode fold is the sum of the per-match
substitution counts. -/
theorem spliceAll_snd_sum (fp sp : List RElem) (rep text : String) :
    (spliceAll fp sp rep text).2
      = ((reFindall fp text.data).map (fun m => (reSubn sp rep.data m).2)).sum := by
  have h : ∀ (ms : List (List Char)) (t : List Char) (n : Nat),
      (ms.foldl (spliceStep sp rep.data) (t, n)).2
        = n + (ms.map (fun m => (reSubn sp rep.data m).2)).sum := by
    intro ms
    induction ms with
    | nil => intro t n; simp
    | cons m rest ih =>
      intro t n
      simp [spliceStep, ih, Nat.add_assoc]
  simpa [spliceAll] using h (reFindall fp text.data) text.data 0

/-- C3: in literal mode, for every text and rule, `apply_rule_to_text`
returns the text with all non-overlapping occurrences of `search` replaced by
`replace` (Python `str.replace`) together with the number of those
occurrences (Python `str.count`), and it returns the input unchanged with
count 0 when there is no occurrence. The claim's concrete instance
(`"aXaXa"`, `X → Y`, result `"aYaYa"` with count 2) is checked in the
witness. -/
theorem C3_literal_mode (text : String) (rule : Rule) (s r : String)
    (hl : rule.literal = true) (hs : rule.search = some s) (hr : rule.replace = some r) :
    apply_rule_to_text rule text = (pyReplace text s r, pyCount text s) ∧
    (pyCount text s = 0 → apply_rule_to_text rule text = (text, 0)) := by
  constructor
  · by_cases h0 : pyCount text s = 0
    · have heq : pyReplace text s r = text := by
        apply String.ext
        exact replaceAux_of_count_zero s.data r.data (text.data.length + 1) text.data h0
      rw [apply_literal_zero rule text s hl hs h0, heq, h0]
    · simp [apply_rule_to_text, hl, hs, hr, h0]
  · intro h0
    exact apply_literal_zero rule text s hl hs h0

/-- Witness for C3 at the claim's concrete input. -/
theorem C3_witness :
    apply_rule_to_text ⟨some "X", some "Y", true, none, none, none⟩ "aXaXa" = ("aYaYa", 2) := by
  rw [(C3_literal_mode "aXaXa" ⟨some "X", some "Y", true, none, none, none⟩ "X" "Y"
    rfl rfl rfl).1]
  decide

/-- C8: literal-mode application is idempotent once exhausted — if the result
of a first application contains no occurrence of `search`, applying the same
rule to that result returns it unchanged with count 0. -/
theorem C8_literal_exhausted (text : String) (rule : Rule) (s : String)
    (hl : rule.literal = true) (hs : rule.search = some s)
    (h0 : pyCount (apply_rule_to_text rule text).1 s = 0) :
    apply_rule_to_text rule (apply_rule_to_text rule text).1
      = ((apply_rule_to_text rule text).1, 0) :=
  apply_literal_zero rule (apply_rule_to_text rule text).1 s hl hs h0

/-- Witness for C8: the first application eliminates every `X`, the second is
a no-op with count 0. -/
theorem C8_witness :
    apply_rule_to_text ⟨some "X", some "Y", true, none, none, none⟩
        (apply_rule_to_text ⟨some "X", some "Y", true, none, none, none⟩ "aXa").1
      = ((apply_rule_to_text ⟨some "X", some "Y", true, none, none, none⟩ "aXa").1, 0) :=
  C8_literal_exhausted "aXa" ⟨some "X", some "Y", true, none, none, none⟩ "X"
    rfl rfl (by decide)

/-- C6: a raw rule whose `search` key is missing or whose `replace` is `None`
is skipped during expansion, and every other rule in the list is still
expanded exactly as if the invalid rule were absent — expansion never
aborts. -/
theorem C6_invalid_rule_skipped (apps : List String) (pre post : List Rule) (bad : Rule)
    (hbad : bad.search = none ∨ bad.replace = none) :
    Packagify.expand_rules apps (pre ++ bad :: post)
      = Packagify.expand_rules apps (pre ++ post) := by
  have hz : Packagify.expandOne apps bad = [] := by
    rcases hbad with h | h
    · simp [Packagify.expandOne, h]
    · cases hsearch : bad.search <;> simp [Packagify.expandOne, h, hsearch]
  induction pre with
  | nil => simp [Packagify.expand_rules, hz]
  | cons a l ih => simp [Packagify.expand_rules, ih]

/-- Witness for C6: a rule with no `search` key sits between two valid rules
and the expansion is the same as without it. -/
theorem C6_witness :
    Packagify.expand_rules ["blog"]
        ([⟨some "a", some "b", false, none, none, none⟩] ++
          ⟨none, some "z", false, none, none, none⟩ ::
            [⟨some "c", some "d", false, none, none, none⟩])
      = Packagify.expand_rules ["blog"]
          ([⟨some "a", some "b", false, none, none, none⟩] ++
            [⟨some "c", some "d", false, none, none, none⟩]) :=
  C6_invalid_rule_skipped ["blog"] _ _ _ (Or.inl rfl)

/-- C7: `get_files_for_rule` returns the empty list (without raising — it is
a total function) when the rule's scope name is not in the scope table, and
likewise when the rule has neither `path_glob` nor `scope`. -/
theorem C7_scope_missing (gitLs : String → List String) (scopes : List (String × String))
    (rule : Rule) :
    (optTruthy rule.path_glob = false →
      scopesGet scopes (rule.scope.getD "") = none →
      get_files_for_rule gitLs scopes rule = []) ∧
    (rule.path_glob = none → rule.scope = none →
      get_files_for_rule gitLs scopes rule = []) := by
  constructor
  · intro hpg hsc
    by_cases hso : optTruthy rule.scope = true <;>
      simp [get_files_for_rule, hpg, hsc, hso, show optTruthy none = false from rfl]
  · intro hpg hsc
    simp [get_files_for_rule, hpg, hsc, show optTruthy none = false from rfl]

/-- Witness for C7: a scope table holding only `py`, a rule pointing at the
scope `nonexistent`, and a rule with neither field; both yield `[]` even
though the tracked-file query would return files. -/
theorem C7_witness :
    get_files_for_rule (fun _ => ["a.py"]) [("py", "*.py")]
        ⟨some "s", some "r", false, none, some "nonexistent", none⟩ = [] ∧
    get_files_for_rule (fun _ => ["a.py"]) [("py", "*.py")]
        ⟨some "s", some "r", false, none, none, none⟩ = [] :=
  ⟨(C7_scope_missing (fun _ => ["a.py"]) [("py", "*.py")]
      ⟨some "s", some "r", false, none, some "nonexistent", none⟩).1 (by decide) (by decide),
   (C7_scope_missing (fun _ => ["a.py"]) [("py", "*.py")]
      ⟨some "s", some "r", false, none, none, none⟩).2 rfl rfl⟩

/-- C10: the app-expansion trigger tests whether `"{app}"` occurs in the
concatenation `search + replace`: a rule whose `search` ends in `"{"` and
whose `replace` begins with `"app}"` contains the token in neither field
alone, yet with a two-element app list the expansion emits two concrete
rules instead of one. -/
theorem C10_concat_trigger :
    pyContains "X\x7b" "{app}" = false ∧
    pyContains "app\x7dY" "{app}" = false ∧
    pyContains ("X\x7b" ++ "app\x7dY") "{app}" = true ∧
    Packagify.expand_rules ["blog", "events"]
        [⟨some "X\x7b", some "app\x7dY", false, none, none, none⟩]
      = [⟨some "X\x7b", some "app\x7dY", false, none, none, none⟩,
         ⟨some "X\x7b", some "app\x7dY", false, none, none, none⟩] := by
  decide

/-- C2: in regex mode with a (truthy, compilable) filter,
`apply_rule_to_text` is exactly the splice fold — every non-overlapping
filter match is rewritten in isolation by `re.subn` and spliced back by
replacing the first occurrence of the original matched substring in the
accumulated text — and the returned count is the sum of the per-match
substitution counts. The claim's concrete instance (`"<a>FOO</a> FOO"` with
filter `"<a>.*?</a>"`, `FOO → BAR`, giving `"<a>BAR</a> FOO"` with count 1)
is checked in the witness. -/
theorem C2_filter_splice (text : String) (rule : Rule) (s r f : String)
    (hl : rule.literal = false) (hs : rule.search = some s) (hr : rule.replace = some r)
    (hf : rule.filter = some f) (hfne : f ≠ "")
    (fp sp : List RElem) (hcf : compileP f = some fp) (hcs : compileP s = some sp) :
    apply_rule_to_text rule text = spliceAll fp sp r text ∧
    (apply_rule_to_text rule text).2
      = ((reFindall fp text.data).map (fun m => (reSubn sp r.data m).2)).sum := by
  have h1 : apply_rule_to_text rule text = spliceAll fp sp r text := by
    simp [apply_rule_to_text, hl, hs, hr, hf, hcf, hcs,
      show optTruthy (some f) = true by simp [optTruthy, hfne]]
  exact ⟨h1, by rw [h1]; exact spliceAll_snd_sum fp sp r text⟩

/-- Witness for C2 at the claim's concrete input: only the `FOO` inside the
filtered tag is rewritten, the identical `FOO` outside is untouched, and the
count is 1. -/
theorem C2_witness :
    apply_rule_to_text ⟨some "FOO", some "BAR", false, some "<a>.*?</a>", none, none⟩
      "<a>FOO</a> FOO" = ("<a>BAR</a> FOO", 1) := by
  rw [(C2_filter_splice "<a>FOO</a> FOO"
      ⟨some "FOO", some "BAR", false, some "<a>.*?</a>", none, none⟩
      "FOO" "BAR" "<a>.*?</a>" rfl rfl rfl rfl (by decide)
      [RElem.base (RBase.lit '<'), RElem.base (RBase.lit 'a'), RElem.base (RBase.lit '>'),
       RElem.star RBase.dot, RElem.base (RBase.lit '<'), RElem.base (RBase.lit '/'),
       RElem.base (RBase.lit 'a'), RElem.base (RBase.lit '>')]
      [RElem.base (RBase.lit 'F'), RElem.base (RBase.lit 'O'), RElem.base (RBase.lit 'O')]
      (by decide) (by decide)).1]
  decide

/-- C4 counterexample: a rule in which neither `search` nor `replace` alone
contains `"{app}"` (the `search` ends in `"{"`, the `replace` begins with
`"app}"`), with a non-empty app list, is expanded into two concrete rules by
`paquet_facile.py`'s `expand_rules` — the claim's "a rule not containing
`{app}` yields exactly one concrete rule" fails, because the code tests the
concatenation of the two fields. -/
theorem C4_counterexample :
    pyContains "X\x7b" "{app}" = false ∧
    pyContains "app\x7dY" "{app}" = false ∧
    (PaquetFacile.expand_rules ["blog", "events"] "my_site"
        [⟨some "X\x7b", some "app\x7dY", false, none, none, none⟩]).length = 2 := by
  decide

/-- C4 (amended): with the trigger read on the concatenation of the
package-token-substituted `search` and `replace`, expansion of a valid raw
rule emits exactly one concrete rule per app name, in app-list order, with
`{app}` replaced in both strings (and all other fields passed through by
`setSR`); otherwise it emits exactly the one substituted rule. -/
theorem C4_app_expansion (apps : List String) (pkg : String) (rule : Rule)
    (s r : String) (hs : rule.search = some s) (hr : rule.replace = some r) (hne : s ≠ "") :
    (pyContains (PaquetFacile.pkgSubst pkg s ++ PaquetFacile.pkgSubst pkg r) "{app}" = true →
      apps ≠ [] →
      PaquetFacile.expandOne apps pkg rule =
        apps.map (fun app =>
          setSR rule (pyReplace (PaquetFacile.pkgSubst pkg s) "{app}" app)
            (pyReplace (PaquetFacile.pkgSubst pkg r) "{app}" app))) ∧
    (pyContains (PaquetFacile.pkgSubst pkg s ++ PaquetFacile.pkgSubst pkg r) "{app}" = false
        ∨ apps = [] →
      PaquetFacile.expandOne apps pkg rule =
        [setSR rule (PaquetFacile.pkgSubst pkg s) (PaquetFacile.pkgSubst pkg r)]) := by
  constructor
  · intro hc ha
    have hemp : apps.isEmpty = false := by
      cases apps with
      | nil => exact absurd rfl ha
      | cons a l => rfl
    simp [PaquetFacile.expandOne, hs, hr, hne, hc, hemp]
  · intro h
    rcases h with hc | ha
    · simp [PaquetFacile.expandOne, hs, hr, hne, hc]
    · simp [PaquetFacile.expandOne, hs, hr, hne, ha]

/-- Witness for the amended C4: `apps = ["blog", "events"]` and a rule with
`{app}` in `search` expand to exactly two rules, in app order. -/
theorem C4_witness :
    PaquetFacile.expandOne ["blog", "events"] "my_site"
        ⟨some "{app}_x", some "y", false, none, none, none⟩
      = [⟨some "blog_x", some "y", false, none, none, none⟩,
         ⟨some "events_x", some "y", false, none, none, none⟩] := by
  rw [(C4_app_expansion ["blog", "events"] "my_site"
      ⟨some "{app}_x", some "y", false, none, none, none⟩ "{app}_x" "y"
      rfl rfl (by decide)).1 (by decide) (by decide)]
  decide

/-- C5 counterexample: rule-text substitution does not cover every recognized
placeholder token — `expand_rules` of `paquet_facile.py` replaces only
`{package_name}` and `{package_name_upper}`, so a `search` string equal to
`"{PackageName}"` survives expansion verbatim instead of becoming
`"MySite"`. -/
theorem C5_counterexample :
    PaquetFacile.expand_rules [] "my_site"
        [⟨some "{PackageName}", some "y", false, none, none, none⟩]
      = [⟨some "{PackageName}", some "y", false, none, none, none⟩] ∧
    classNameOf "my_site" = "MySite" ∧
    "{PackageName}" ≠ "MySite" := by
  decide

/-- C5 (amended): the resolved placeholder values for
`package_name = "my_site"` are as claimed (`{version}` strips every leading
`v`), but substitution is per-context: rule text gets exactly
`{package_name}` and `{package_name_upper}` (so `{PackageName}` survives
there), while each template render applies its own token subset with the
claimed values. -/
theorem C5_placeholder_values :
    pyUpper "my_site" = "MY_SITE" ∧
    classNameOf "my_site" = "MySite" ∧
    packageNameKebab "my_site" = "my-site" ∧
    packageNameTitle "my_site" = "My Site" ∧
    versionOf "v2.1.0" = "2.1.0" ∧
    versionOf "vv2.1.0" = "2.1.0" ∧
    PaquetFacile.pkgSubst "my_site" "a {package_name} b {package_name_upper} c {PackageName}"
      = "a my_site b MY_SITE c {PackageName}" ∧
    renderAppsTemplate "my_site" "{PackageName}/{package_name}/{package_verbose_name}"
      = "MySite/my_site/My Site" ∧
    renderPyprojectTemplate "my_site" "v2.1.0" "{package_name}|{package_name_kebab}|{version}"
      = "my_site|my-site|2.1.0" := by
  decide

/-- C9 counterexample: the dry-run verdict is not always the verdict a
non-dry run would report — on a readable but unwritable file whose rewrite
has a positive count, dry-run reports "changed" while a real run hits the
`write_text` failure branch and reports "no change". -/
theorem C9_counterexample :
    (apply_rule_to_file [("f.py", ⟨"X", false⟩)] "f.py"
        ⟨some "X", some "Y", true, none, none, none⟩ true).1 = true ∧
    (apply_rule_to_file [("f.py", ⟨"X", false⟩)] "f.py"
        ⟨some "X", some "Y", true, none, none, none⟩ false).1 = false := by
  decide

/-- C9 (amended): `apply_rule_to_file` in dry-run mode never mutates the
file store (it still reads and computes the rewrite), and its
changed/unchanged verdict agrees with the non-dry verdict whenever the
write would succeed; only a failing write makes the two verdicts differ. -/
theorem C9_dry_run_frame (fs : FS) (p : String) (rule : Rule) :
    (apply_rule_to_file fs p rule true).2 = fs ∧
    (fsWritable fs p = true →
      (apply_rule_to_file fs p rule true).1 = (apply_rule_to_file fs p rule false).1) := by
  constructor
  · unfold apply_rule_to_file
    cases h : fsLookup fs p with
    | none => rfl
    | some st =>
      by_cases h0 : (apply_rule_to_text rule st.content).2 = 0 <;> simp [h0]
  · intro hw
    unfold fsWritable at hw
    unfold apply_rule_to_file
    cases h : fsLookup fs p with
    | none => rfl
    | some st =>
      rw [h] at hw
      have hw' : st.writable = true := hw
      by_cases h0 : (apply_rule_to_text rule st.content).2 = 0 <;> simp [h0, hw']

/-- Witness for the amended C9 on a concrete writable file: the dry run
leaves the store untouched and agrees with the non-dry verdict. -/
theorem C9_witness :
    (apply_rule_to_file [("f.py", ⟨"X", true⟩)] "f.py"
        ⟨some "X", some "Y", true, none, none, none⟩ true).2 = [("f.py", ⟨"X", true⟩)] ∧
    (apply_rule_to_file [("f.py", ⟨"X", true⟩)] "f.py"
        ⟨some "X", some "Y", true, none, none, none⟩ true).1
      = (apply_rule_to_file [("f.py", ⟨"X", true⟩)] "f.py"
          ⟨some "X", some "Y", true, none, none, none⟩ false).1 :=
  ⟨(C9_dry_run_frame [("f.py", ⟨"X", true⟩)] "f.py"
      ⟨some "X", some "Y", true, none, none, none⟩).1,
   (C9_dry_run_frame [("f.py", ⟨"X", true⟩)] "f.py"
      ⟨some "X", some "Y", true, none, none, none⟩).2 (by decide)⟩

/-- C1 counterexample: two rules both change the same file, the summary
counter reports 2 "files changed" while only one distinct file path was
modified — the reported number counts changed `(file, rule)` applications,
not distinct files. (Here the two units change disjoint substrings, so any
completion order gives the same two `True` verdicts.) -/
theorem C1_counterexample :
    (processUnits false [("f.py", ⟨"AB", true⟩)]
        [("f.py", ⟨some "A", some "X", true, none, none, none⟩),
         ("f.py", ⟨some "B", some "Y", true, none, none, none⟩)]).2 = 2 ∧
    (changedFiles false [("f.py", ⟨"AB", true⟩)]
        [("f.py", ⟨some "A", some "X", true, none, none, none⟩),
         ("f.py", ⟨some "B", some "Y", true, none, none, none⟩)]).length = 1 := by
  decide

/-- C1 (amended): the summary's "files changed" number counts the
`(file, rule)` units whose verdict was `True`, so it can exceed the number
of distinct file paths that were (or, in dry-run, would be) modified;
whenever the submitted unit paths are pairwise distinct (no file is targeted
by more than one unit), it does equal that distinct-file count. -/
theorem C1_changed_count (d : Bool) (fs : FS) (us : List (String × Rule))
    (hnd : (us.map Prod.fst).Nodup) :
    (processUnits d fs us).2 = (changedFiles d fs us).length := by
  have h1 := processUnits_count d us fs
  have hsub : (((unitVerdicts d fs us).filter (fun v => v.2)).map Prod.fst).Sublist
      ((unitVerdicts d fs us).map Prod.fst) :=
    List.Sublist.map Prod.fst (List.filter_sublist _)
  rw [unitVerdicts_paths d us fs] at hsub
  have h2 : (((unitVerdicts d fs us).filter (fun v => v.2)).map Prod.fst).Nodup :=
    List.Nodup.sublist hsub hnd
  rw [h1, changedFiles]
  rw [List.dedup_eq_self.mpr h2, List.length_map]

/-- Witness for the amended C1: two units on two distinct files, both
changed; the counter equals the number of distinct changed paths. -/
theorem C1_witness :
    (([("a.py", (⟨some "X", some "Y", true, none, none, none⟩ : Rule)),
       ("b.py", ⟨some "X", some "Y", true, none, none, none⟩)].map Prod.fst).Nodup) ∧
    (processUnits false [("a.py", ⟨"X", true⟩), ("b.py", ⟨"X", true⟩)]
        [("a.py", ⟨some "X", some "Y", true, none, none, none⟩),
         ("b.py", ⟨some "X", some "Y", true, none, none, none⟩)]).2
      = (changedFiles false [("a.py", ⟨"X", true⟩), ("b.py", ⟨"X", true⟩)]
          [("a.py", ⟨some "X", some "Y", true, none, none, none⟩),
           ("b.py", ⟨some "X", some "Y", true, none, none, none⟩)]).length :=
  ⟨by decide,
   C1_changed_count false [("a.py", ⟨"X", true⟩), ("b.py", ⟨"X", true⟩)]
     [("a.py", ⟨some "X", some "Y", true, none, none, none⟩),
      ("b.py", ⟨some "X", some "Y", true, none, none, none⟩)] (by decide)⟩

end SitesFaciles
